import Mathlib

/-!
Verification of the analytics query-construction and result-reconciliation
layer of the classroomio/analytics repository.

The TypeScript source is shallowly embedded:
  * JS numbers that carry (possibly fractional) sampled counts are modelled
    as rationals;
  * timestamps are modelled as integer minutes since an arbitrary epoch, and
    an IANA timezone is modelled as a fixed UTC offset in minutes (the format
    "YYYY-MM-DD HH:mm:ss" used for bucket keys is injective and monotone at
    this precision, so a bucket key is represented by its timestamp);
  * JS objects used as insertion-ordered dictionaries are modelled as
    association lists with unique keys, where property assignment replaces
    the value in place for an existing key and appends for a new key;
  * promises and HTTP responses are modelled with Except and an explicit
    response record.
-/

namespace Analytics

/-- JS Number.prototype.toFixed 0 digits: round to the nearest integer,
ties toward the larger integer, then print (used on nonnegative magnitudes
in the source). -/
def jsToFixed0 (q : ℚ) : String :=
  let n : ℤ := ⌊q + 1/2⌋
  (if n < 0 then "-" else "") ++ toString n.natAbs

/-- JS Number.prototype.toFixed 2 digits: round q to two decimals, ties
toward the larger value, and print with exactly two decimal places. -/
def jsToFixed2 (q : ℚ) : String :=
  let n : ℤ := ⌊q * 100 + 1/2⌋
  let a : ℕ := n.natAbs
  (if n < 0 then "-" else "") ++ toString (a / 100) ++ "." ++
    (if a % 100 < 10 then "0" else "") ++ toString (a % 100)

namespace Api

/-- Embeds getPreviousInterval from the analytics API module
(src/unnamed/part_002, lines 86-101): a switch on the interval token with
default branch returning the fixed token "1d". -/
def getPreviousInterval (interval : String) : String :=
  if interval = "today" then "yesterday"
  else if interval = "yesterday" then "2d"
  else if interval = "7days" then "14d"
  else if interval = "30days" then "60d"
  else if interval = "90days" then "180d"
  else "1d"

end Api

namespace Stats

/-- Embeds getPreviousInterval from the stats resource module
(src/unnamed/part_001, lines 38-46): a lookup in the literal object
map 1d to 2d, 7d to 14d, 30d to 60d, defaulting to the input token itself
(intervalMap[currentInterval] or currentInterval). -/
def getPreviousInterval (currentInterval : String) : String :=
  if currentInterval = "1d" then "2d"
  else if currentInterval = "7d" then "14d"
  else if currentInterval = "30d" then "60d"
  else currentInterval

/-- Result shape of the change computations: the rendered percentage string
and the tri-state direction (JS true / false / null modelled as
some true / some false / none). -/
structure PercentChange where
  percentage : String
  isIncreased : Option Bool
deriving DecidableEq, Repr

/-- Embeds calculatePercentageChange from the stats resource module
(src/unnamed/part_001, lines 70-80): previous = 0 yields the "N/A"
sentinel with null direction; otherwise the signed percentage
(current - previous) / previous * 100 rendered with toFixed(2) and a "%"
suffix, with direction from the sign of the change. -/
def calculatePercentageChange (current previous : ℚ) : PercentChange :=
  if previous = 0 then { percentage := "N/A", isIncreased := none }
  else
    let change := (current - previous) / previous * 100
    { percentage := jsToFixed2 change ++ "%"
      isIncreased := if change > 0 then some true
                     else if change < 0 then some false
                     else none }

end Stats

/-- Embeds the inner calculateChange of calculateMetricsChange
(src/app/lib/utils.ts, lines 141-161): previous = 0 yields percentage "0%"
with null direction; otherwise the change (current - previous) /
previous * 100 is computed, the percentage rendered as
Math.abs(change).toFixed(0) plus "%", and the direction taken from the sign
of the change. -/
def calculateChange (currentVal previousVal : ℚ) : Stats.PercentChange :=
  if previousVal = 0 then { percentage := "0%", isIncreased := none }
  else
    let change := (currentVal - previousVal) / previousVal * 100
    { percentage := jsToFixed0 |change| ++ "%"
      isIncreased := if change > 0 then some true
                     else if change < 0 then some false
                     else none }

/-- The bucket granularity of a time-series query ("DAY" | "HOUR" in the
source). -/
inductive IntervalType where
  | DAY : IntervalType
  | HOUR : IntervalType
deriving DecidableEq, Repr

/-- dayjs(t).tz(tz).startOf("day") for a timezone of fixed UTC offset o
minutes: the UTC instant (in minutes) of the local midnight at or before t. -/
def startOfDayTz (o t : ℤ) : ℤ :=
  ((t + o) / 1440) * 1440 - o

/-- One advance of the loop variable in generateEmptyRowsOverInterval
(src/unnamed/part_002, lines 119-136): for DAY, add 25 hours then snap to
the local start of day (the daylight-saving workaround); for HOUR, add one
hour. -/
def nextBucket (it : IntervalType) (o t : ℤ) : ℤ :=
  match it with
  | .DAY => startOfDayTz o (t + 1500)
  | .HOUR => t + 60

/-- Embeds generateEmptyRowsOverInterval (src/unnamed/part_002, lines
103-140): walk from startDateTime while strictly before endDateTime,
emitting the bucket key of the current position at each step, advancing by
nextBucket.  Keys are represented by their UTC timestamp in minutes. -/
def generateEmptyRowsOverInterval (it : IntervalType) (o startT endT : ℤ) :
    List ℤ :=
  if startT < endT then
    startT :: generateEmptyRowsOverInterval it o (nextBucket it o startT) endT
  else []
termination_by (endT - startT).toNat
decreasing_by
  cases it <;> simp [nextBucket, startOfDayTz] <;> omega

/-- First-match lookup in an insertion-ordered dictionary modelled as an
association list (JS object property read). -/
def lookupA {κ β : Type} [DecidableEq κ] (m : List (κ × β)) (k : κ) :
    Option β :=
  match m with
  | [] => none
  | (k', v') :: rest => if k' = k then some v' else lookupA rest k

/-- JS object property assignment on an insertion-ordered dictionary:
replace the value in place when the key exists, append otherwise. -/
def upsert {κ β : Type} [DecidableEq κ] (m : List (κ × β)) (k : κ) (v : β) :
    List (κ × β) :=
  match m with
  | [] => [(k, v)]
  | (k', v') :: rest =>
    if k' = k then (k, v) :: rest else (k', v') :: upsert rest k v

/-- A data row of the time-bucketed query result in
getViewsGroupedByInterval: bucket timestamp plus the three summed
aggregates. -/
structure BucketRow where
  bucket : ℤ
  views : ℚ
  visitors : ℚ
  visits : ℚ
deriving DecidableEq, Repr

/-- The per-bucket record kept in the merged dictionary of
getViewsGroupedByInterval. -/
structure BucketCounts where
  views : ℚ
  visitors : ℚ
  visits : ℚ
deriving DecidableEq, Repr

instance : IsTotal (ℤ × BucketCounts) (fun a b => a.1 ≤ b.1) :=
  ⟨fun a b => Int.le_total a.1 b.1⟩

instance : IsTrans (ℤ × BucketCounts) (fun a b => a.1 ≤ b.1) :=
  ⟨fun _ _ _ h h' => le_trans h h'⟩

/-- Embeds the result-reconciliation part of getViewsGroupedByInterval
(src/unnamed/part_002, lines 277-333): seed a dictionary with every
generated bucket key at the zero record, overwrite (JS property
assignment) with each backend data row keyed by its bucket timestamp, then
emit the entries sorted ascending by key (Object.entries plus sort by
localeCompare on the formatted timestamps, which orders like the
timestamps themselves). -/
def getViewsGroupedByInterval (it : IntervalType) (o startT endT : ℤ)
    (data : List BucketRow) : List (ℤ × BucketCounts) :=
  let initialRows := generateEmptyRowsOverInterval it o startT endT
  let seeded : List (ℤ × BucketCounts) :=
    initialRows.map (fun k => (k, ⟨0, 0, 0⟩))
  let merged := data.foldl
    (fun accum row => upsert accum row.bucket ⟨row.views, row.visitors, row.visits⟩)
    seeded
  merged.insertionSort (fun a b => a.1 ≤ b.1)

/-- JS Array.prototype.slice(a, b) for 0 ≤ a ≤ b. -/
def jsSlice {α : Type} (l : List α) (a b : ℕ) : List α :=
  (l.drop a).take (b - a)

/-- The LIMIT value of the dimension-grouped queries in
getVisitorCountByColumn / getAllCountsByColumn: limit * page rows are
requested from the backend. -/
def queryLimit (page limit : ℕ) : ℕ :=
  limit * page

/-- The pagination-emulation slice shared by getVisitorCountByColumn
(src/unnamed/part_002, lines 560-563) and getAllCountsByColumn (lines
630-633): responseData.data.slice(limit * (page - 1), limit * page). -/
def slicePage {α : Type} (data : List α) (page limit : ℕ) : List α :=
  jsSlice data (limit * (page - 1)) (limit * page)

/-- A data row of the dimension-grouped visitor-count query in
getVisitorCountByColumn: the grouped column value and the summed count. -/
structure VCRow where
  key : String
  count : ℚ
deriving DecidableEq, Repr

/-- Embeds the result handling of getVisitorCountByColumn
(src/unnamed/part_002, lines 509-574): slice the backend rows (ordered by
count descending, at most limit * page of them) to the requested page and
project each row to a (column value, count) pair. -/
def getVisitorCountByColumn (responseData : List VCRow) (page limit : ℕ) :
    List (String × ℚ) :=
  (slicePage responseData page limit).map (fun row => (row.key, row.count))

/-- The allow-list of filterable keys in filtersToSql
(src/unnamed/part_002, lines 143-149), in its fixed order. -/
def supportedFilters : List String :=
  ["path", "referrer", "browserName", "country", "deviceModel"]

/-- Modelled from the spec: the Column Mapping Table (the schema module
imported by src/unnamed/part_002 is not under src/) is a static mapping
from logical field names to physical column identifiers in the analytics
dataset; the physical identifiers are kept abstract, one fixed string per
logical name. -/
def ColumnMappings (field : String) : String :=
  "column<" ++ field ++ ">"

/-- A filter set as the JS object it is at runtime: an insertion-ordered
dictionary with unique keys from dimension-name strings to exact-match
values. -/
def SearchFilters : Type := List (String × String)

/-- Embeds filtersToSql (src/unnamed/part_002, lines 142-158): iterate the
allow-list in its fixed order and, for each key present in the filter
object, append an exact-equality clause against the mapped physical
column with the value interpolated as quoted literal text. -/
def filtersToSql (filters : List (String × String)) : String :=
  supportedFilters.foldl
    (fun filterStr filter =>
      match lookupA filters filter with
      | some v =>
        filterStr ++ "AND " ++ ColumnMappings filter ++ " = \x27" ++ v ++ "\x27"
      | none => filterStr)
    ""

/-- The accumulating record of view/visit/visitor totals
(AnalyticsCountResult in src/unnamed/part_002, lines 20-24). -/
structure AnalyticsCountResult where
  views : ℚ
  visits : ℚ
  visitors : ℚ
deriving DecidableEq, Repr

/-- A data row of the dimension-grouped query in getAllCountsByColumn: the
grouped column value, the summed count and the two indicator flags. -/
structure KeyedRow where
  key : String
  count : ℚ
  isVisitor : ℤ
  isVisit : ℤ
deriving DecidableEq, Repr

/-- Embeds accumulateCountsFromRowResult (src/unnamed/part_002, lines
30-45) as a pure update: add count to visits when isVisit = 1, to
visitors when isVisitor = 1, and to views unconditionally. -/
def accumulateCountsFromRowResult (counts : AnalyticsCountResult)
    (row : KeyedRow) : AnalyticsCountResult :=
  let counts :=
    if row.isVisit = 1 then { counts with visits := counts.visits + row.count }
    else counts
  let counts :=
    if row.isVisitor = 1 then
      { counts with visitors := counts.visitors + row.count }
    else counts
  { counts with views := counts.views + row.count }

/-- Embeds the reduce of getAllCountsByColumn (src/unnamed/part_002, lines
635-651): fold the page rows into a dictionary keyed by the grouped column
value, seeding a missing key with the zero record and accumulating the row
into the record held at that key. -/
def buildAllCounts (pageData : List KeyedRow) :
    List (String × AnalyticsCountResult) :=
  pageData.foldl
    (fun acc row =>
      let current := (lookupA acc row.key).getD ⟨0, 0, 0⟩
      upsert acc row.key (accumulateCountsFromRowResult current row))
    []

/-- Embeds the whole result handling of getAllCountsByColumn
(src/unnamed/part_002, lines 576-655): pagination slice, then per-key
accumulation. -/
def getAllCountsByColumn (responseData : List KeyedRow) (page limit : ℕ) :
    List (String × AnalyticsCountResult) :=
  buildAllCounts (slicePage responseData page limit)

/-- A data row of the totals query in getCounts: the three summed
aggregates. -/
structure CountsRow where
  views : ℚ
  visitors : ℚ
  visits : ℚ
deriving DecidableEq, Repr

/-- An HTTP response to a totals query: the ok flag and the parsed data
rows. -/
structure QueryResponse where
  ok : Bool
  data : List CountsRow
deriving DecidableEq, Repr

/-- Number(data[0]?.field || 0) applied to the three fields of the first
row of a response: missing rows coerce to zero. -/
def extractCounts (r : QueryResponse) : AnalyticsCountResult :=
  { views := ((r.data.head?.map (·.views)).getD 0)
    visits := ((r.data.head?.map (·.visits)).getD 0)
    visitors := ((r.data.head?.map (·.visitors)).getD 0) }

/-- Whether an awaited query settles as a failure for getCounts: a
rejected fetch (network error) or a response with ok = false. -/
def isFailure (r : Except String QueryResponse) : Bool :=
  match r with
  | .error _ => true
  | .ok resp => !resp.ok

/-- Embeds the joint current/previous handling of AnalyticsEngineAPI.getCounts
(src/unnamed/part_002, lines 376-422): the two queries are joined; a
rejection of either, or a non-ok status on either, makes the whole
operation throw Error("Failed to fetch counts"); otherwise both extracted
snapshots are returned together. -/
def getCounts (current previous : Except String QueryResponse) :
    Except String (AnalyticsCountResult × AnalyticsCountResult) :=
  match current, previous with
  | .ok c, .ok p =>
    if !c.ok || !p.ok then .error "Failed to fetch counts"
    else .ok (extractCounts c, extractCounts p)
  | _, _ => .error "Failed to fetch counts"

end Analytics


namespace Analytics

/-- C1 counterexample: the API-module mapping sends the app token 7d (and
30d) to the fallback 1d, not to 14d/60d, and the stats-module mapping
sends today to itself, not to yesterday. -/
theorem previousInterval_claim_false :
    Api.getPreviousInterval "7d" = "1d" ∧ ("1d" : String) ≠ "14d" ∧
    Api.getPreviousInterval "30d" = "1d" ∧
    Stats.getPreviousInterval "today" = "today" ∧
    ("today" : String) ≠ "yesterday" := by
  decide

/-- C1 (amended): the API-module getPreviousInterval maps today to
yesterday, yesterday to 2d, 7days to 14d, 30days to 60d, 90days to 180d,
and every other token (hence also 7d and 30d) to the fixed fallback 1d;
the stats-module getPreviousInterval maps 1d to 2d, 7d to 14d, 30d to 60d,
and returns every other token (hence also today) unchanged. -/
theorem previousInterval_mapping (s : String)
    (h1 : s ≠ "today") (h2 : s ≠ "yesterday") (h3 : s ≠ "7days")
    (h4 : s ≠ "30days") (h5 : s ≠ "90days")
    (h6 : s ≠ "1d") (h7 : s ≠ "7d") (h8 : s ≠ "30d") :
    Api.getPreviousInterval "today" = "yesterday" ∧
    Api.getPreviousInterval "yesterday" = "2d" ∧
    Api.getPreviousInterval "7days" = "14d" ∧
    Api.getPreviousInterval "30days" = "60d" ∧
    Api.getPreviousInterval "90days" = "180d" ∧
    Api.getPreviousInterval s = "1d" ∧
    Stats.getPreviousInterval "1d" = "2d" ∧
    Stats.getPreviousInterval "7d" = "14d" ∧
    Stats.getPreviousInterval "30d" = "60d" ∧
    Stats.getPreviousInterval s = s := by
  refine ⟨by decide, by decide, by decide, by decide, by decide, ?_,
    by decide, by decide, by decide, ?_⟩ <;>
    simp [Api.getPreviousInterval, Stats.getPreviousInterval,
      h1, h2, h3, h4, h5, h6, h7, h8]

/-- C1 witness: the amended mapping evaluated at the unmapped token 90d. -/
theorem previousInterval_mapping_witness :
    Api.getPreviousInterval "90d" = "1d" ∧
    Stats.getPreviousInterval "90d" = "90d" := by
  have h := previousInterval_mapping "90d" (by decide) (by decide) (by decide)
    (by decide) (by decide) (by decide) (by decide) (by decide)
  exact ⟨h.2.2.2.2.2.1, h.2.2.2.2.2.2.2.2.2⟩

/-- C10 counterexample: at the token today the stats-module mapping
returns today while the API-module mapping returns yesterday, so the two
functions are not extensionally equal. -/
theorem previousInterval_modules_differ_at_today :
    Stats.getPreviousInterval "today" = "today" ∧
    Api.getPreviousInterval "today" = "yesterday" ∧
    Stats.getPreviousInterval "today" ≠ Api.getPreviousInterval "today" := by
  decide

/-- C10 (amended): the two getPreviousInterval functions are far from
extensionally equal: they disagree on every interval-token string. -/
theorem previousInterval_modules_disagree_everywhere (s : String) :
    Stats.getPreviousInterval s ≠ Api.getPreviousInterval s := by
  simp only [Stats.getPreviousInterval, Api.getPreviousInterval]
  split_ifs <;> simp_all

end Analytics

namespace Analytics

/-- C2 counterexample: calculateChange with previous exactly zero returns
percentage "0%", not the "N/A" / not-applicable sentinel; the result is
indistinguishable from a genuine exactly-zero change. -/
theorem calculateChange_zero_prev_not_na :
    calculateChange 5 0 = ⟨"0%", none⟩ ∧
    (calculateChange 5 0).percentage ≠ "N/A" ∧
    calculateChange 5 0 = calculateChange 100 100 := by
  have h5 : calculateChange 5 0 = ⟨"0%", none⟩ := by
    simp [calculateChange]
  have h100 : calculateChange 100 100 = ⟨"0%", none⟩ := by
    have hq : ((100 : ℚ) - 100) / 100 * 100 = 0 := by norm_num
    have hf : ⌊(0 : ℚ) + 1/2⌋ = 0 := by
      rw [Int.floor_eq_iff]; norm_num
    simp only [calculateChange]
    rw [if_neg (by norm_num : (100 : ℚ) ≠ 0)]
    simp only [hq, abs_zero, jsToFixed0, hf]
    norm_num
    decide
  rw [h5, h100]
  refine ⟨rfl, by decide, rfl⟩

/-- C2 (amended): for every current value x, a previous value of exactly
zero never divides: calculateChange returns percentage "0%" with neutral
(null) direction, and calculatePercentageChange returns the "N/A" sentinel
with neutral (null) direction. -/
theorem change_zero_prev_neutral (x : ℚ) :
    calculateChange x 0 = ⟨"0%", none⟩ ∧
    Stats.calculatePercentageChange x 0 = ⟨"N/A", none⟩ := by
  constructor <;> simp [calculateChange, Stats.calculatePercentageChange]

end Analytics

namespace Analytics

/-- C8: with nonzero previous, the change computation computes the signed
percentage (current - previous) / previous * 100; the rendered percentage
is its magnitude (toFixed(0), with a "%" suffix) and the tri-state
direction is exactly the sign of the signed change; in particular
calculateChange 150 100 renders 50% increased and calculateChange 50 100
renders the magnitude 50% decreased (calculatePercentageChange renders the
signed string -50.00%). -/
theorem calculateChange_nonzero_prev (c p : ℚ) (hp : p ≠ 0) :
    ((c - p) / p * 100 > 0 → (calculateChange c p).isIncreased = some true) ∧
    ((c - p) / p * 100 < 0 → (calculateChange c p).isIncreased = some false) ∧
    ((c - p) / p * 100 = 0 → (calculateChange c p).isIncreased = none) ∧
    (calculateChange c p).percentage = jsToFixed0 |(c - p) / p * 100| ++ "%" ∧
    calculateChange 150 100 = ⟨"50%", some true⟩ ∧
    calculateChange 50 100 = ⟨"50%", some false⟩ ∧
    Stats.calculatePercentageChange 150 100 = ⟨"50.00%", some true⟩ ∧
    Stats.calculatePercentageChange 50 100 = ⟨"-50.00%", some false⟩ := by
  have key : calculateChange c p =
      ⟨jsToFixed0 |(c - p) / p * 100| ++ "%",
        if (c - p) / p * 100 > 0 then some true
        else if (c - p) / p * 100 < 0 then some false else none⟩ := by
    simp [calculateChange, hp]
  have hfix50 : jsToFixed0 |(50 : ℚ)| = "50" := by
    have hf : ⌊(50 : ℚ) + 1/2⌋ = 50 := by
      rw [Int.floor_eq_iff]; norm_num
    rw [show |(50 : ℚ)| = 50 by norm_num]
    simp only [jsToFixed0, hf]
    decide
  have e150 : calculateChange 150 100 = ⟨"50%", some true⟩ := by
    have hq : ((150 : ℚ) - 100) / 100 * 100 = 50 := by norm_num
    simp only [calculateChange]
    rw [if_neg (by norm_num : (100 : ℚ) ≠ 0)]
    simp only [hq, hfix50]
    norm_num
    decide
  have e50 : calculateChange 50 100 = ⟨"50%", some false⟩ := by
    have hq : ((50 : ℚ) - 100) / 100 * 100 = -50 := by norm_num
    simp only [calculateChange]
    rw [if_neg (by norm_num : (100 : ℚ) ≠ 0)]
    simp only [hq, show |(-50 : ℚ)| = |(50 : ℚ)| by norm_num, hfix50]
    norm_num
    decide
  have s150 : Stats.calculatePercentageChange 150 100 = ⟨"50.00%", some true⟩ := by
    have hq : ((150 : ℚ) - 100) / 100 * 100 = 50 := by norm_num
    have hf : ⌊(50 : ℚ) * 100 + 1/2⌋ = 5000 := by
      rw [Int.floor_eq_iff]; norm_num
    simp only [Stats.calculatePercentageChange]
    rw [if_neg (by norm_num : (100 : ℚ) ≠ 0)]
    simp only [hq, jsToFixed2, hf]
    norm_num
    decide
  have s50 : Stats.calculatePercentageChange 50 100 = ⟨"-50.00%", some false⟩ := by
    have hq : ((50 : ℚ) - 100) / 100 * 100 = -50 := by norm_num
    have hf : ⌊(-50 : ℚ) * 100 + 1/2⌋ = -5000 := by
      rw [Int.floor_eq_iff]; norm_num
    simp only [Stats.calculatePercentageChange]
    rw [if_neg (by norm_num : (100 : ℚ) ≠ 0)]
    simp only [hq, jsToFixed2, hf]
    norm_num
    decide
  refine ⟨?_, ?_, ?_, ?_, e150, e50, s150, s50⟩ <;> rw [key]
  · intro h; simp [h]
  · intro h; simp [h, asymm h]
  · intro h; simp [h]

/-- C8 witness: the theorem applied at the concrete pair (150, 100). -/
theorem calculateChange_nonzero_prev_witness :
    calculateChange 150 100 = ⟨"50%", some true⟩ :=
  (calculateChange_nonzero_prev 150 100 (by norm_num)).2.2.2.2.1

end Analytics

namespace Analytics

/-- C9: when either of the jointly issued current/previous queries settles
as a failure (a rejected fetch or a non-ok response), getCounts fails as a
whole with the fixed error and never returns a half-filled result. -/
theorem getCounts_fails_jointly (current previous : Except String QueryResponse)
    (h : isFailure current = true ∨ isFailure previous = true) :
    getCounts current previous = .error "Failed to fetch counts" := by
  cases current with
  | error e => rfl
  | ok c =>
    cases previous with
    | error e => rfl
    | ok p =>
      simp only [isFailure, Bool.not_eq_true'] at h
      rcases h with h | h <;> simp [getCounts, h]

/-- C9 witness: a rejected current query with a successful previous query
still fails as a whole. -/
theorem getCounts_fails_jointly_witness :
    getCounts (.error "network failure") (.ok ⟨true, []⟩) =
      .error "Failed to fetch counts" :=
  getCounts_fails_jointly (.error "network failure") (.ok ⟨true, []⟩)
    (Or.inl rfl)

/-- C5: the pagination emulation slices the backend rows (of which only
the first limit * page, the requested LIMIT, matter) to the half-open
index range from (page-1)*limit to page*limit, yielding at most limit
rows; on a 25-row result, page 2 with limit 10 yields exactly rows 11-20
and page 3 yields rows 21-25. -/
theorem pagination_slice {α : Type} (data : List α) (page limit : ℕ)
    (hp : 1 ≤ page) :
    slicePage data page limit = (data.drop ((page - 1) * limit)).take limit ∧
    (slicePage data page limit).length ≤ limit ∧
    slicePage data page limit
      = slicePage (data.take (queryLimit page limit)) page limit ∧
    slicePage (List.range' 1 25) 2 10
      = [11, 12, 13, 14, 15, 16, 17, 18, 19, 20] ∧
    slicePage (List.range' 1 25) 3 10 = [21, 22, 23, 24, 25] := by
  obtain ⟨n, rfl⟩ : ∃ n, page = n + 1 := ⟨page - 1, by omega⟩
  have harith : limit * (n + 1) - limit * n = limit := by
    simp [Nat.mul_succ]
  refine ⟨?_, ?_, ?_, by decide, by decide⟩
  · simp only [slicePage, jsSlice, Nat.add_sub_cancel, harith]
    rw [Nat.mul_comm]
  · simp only [slicePage, jsSlice, Nat.add_sub_cancel, harith,
      List.length_take]
    exact Nat.min_le_left _ _
  · simp only [slicePage, jsSlice, queryLimit, Nat.add_sub_cancel,
      List.drop_take, List.take_take, harith]
    simp

/-- C5 witness: the slice evaluated on the 25-row example at page 2. -/
theorem pagination_slice_witness :
    slicePage (List.range' 1 25) 2 10
      = [11, 12, 13, 14, 15, 16, 17, 18, 19, 20] :=
  (pagination_slice (List.range' 1 25) 2 10 (by decide)).2.2.2.1

end Analytics

namespace Analytics

theorem lt_nextBucket (it : IntervalType) (o t : ℤ) : t < nextBucket it o t := by
  cases it <;> simp [nextBucket, startOfDayTz] <;> omega

theorem startOfDayTz_idem_step (o a : ℤ) (h : startOfDayTz o a = a) :
    startOfDayTz o (a + 1500) = a + 1440 := by
  simp only [startOfDayTz] at h ⊢
  omega

theorem generateEmptyRows_cons (it : IntervalType) (o s e : ℤ) (h : s < e) :
    generateEmptyRowsOverInterval it o s e
      = s :: generateEmptyRowsOverInterval it o (nextBucket it o s) e := by
  rw [generateEmptyRowsOverInterval, if_pos h]

theorem generateEmptyRows_nil (it : IntervalType) (o s e : ℤ) (h : ¬ s < e) :
    generateEmptyRowsOverInterval it o s e = [] := by
  rw [generateEmptyRowsOverInterval, if_neg h]

theorem generateEmptyRows_chain_next (it : IntervalType) (o startT endT : ℤ) :
    List.Chain' (fun a b => b = nextBucket it o a)
      (generateEmptyRowsOverInterval it o startT endT) := by
  induction startT, endT using generateEmptyRowsOverInterval.induct it o with
  | case1 s e hlt ih =>
    rw [generateEmptyRows_cons it o s e hlt]
    by_cases h' : nextBucket it o s < e
    · rw [generateEmptyRows_cons it o _ e h'] at ih ⊢
      exact List.Chain'.cons rfl ih
    · simp [generateEmptyRows_nil it o _ e h']
  | case2 s e hlt => simp [generateEmptyRows_nil it o s e hlt]

theorem generateEmptyRows_mem_bounds (it : IntervalType) (o startT endT : ℤ) :
    ∀ k ∈ generateEmptyRowsOverInterval it o startT endT,
      startT ≤ k ∧ k < endT := by
  induction startT, endT using generateEmptyRowsOverInterval.induct it o with
  | case1 s e hlt ih =>
    rw [generateEmptyRows_cons it o s e hlt]
    intro k hk
    rcases List.mem_cons.mp hk with rfl | hk
    · exact ⟨le_refl k, hlt⟩
    · have := ih k hk
      exact ⟨le_trans (le_of_lt (lt_nextBucket it o s)) this.1, this.2⟩
  | case2 s e hlt => simp [generateEmptyRows_nil it o s e hlt]

theorem generateEmptyRows_pairwise_lt (it : IntervalType) (o startT endT : ℤ) :
    List.Pairwise (· < ·) (generateEmptyRowsOverInterval it o startT endT) := by
  have hc : List.Chain' (· < ·) (generateEmptyRowsOverInterval it o startT endT) :=
    (generateEmptyRows_chain_next it o startT endT).imp
      (fun a b hab => by rw [hab]; exact lt_nextBucket it o a)
  exact (List.chain'_iff_pairwise.mp hc)

end Analytics

namespace Analytics

/-- C3 counterexample: with DAY granularity from an unaligned start (13:30
UTC, offset 0) to the end of day 2, the generated keys are the start
itself and the next day boundary, which are 630 minutes apart, not one
day (1440 minutes): the buckets are not all exactly one granularity unit
apart. -/
theorem bucket_generator_gap_not_uniform :
    generateEmptyRowsOverInterval .DAY 0 810 2880 = [810, 1440] ∧
    (1440 : ℤ) - 810 ≠ 1440 := by
  constructor
  · simp [generateEmptyRowsOverInterval, nextBucket, startOfDayTz]
  · decide

/-- C3 (amended): for every granularity and range the Bucket Generator
returns keys in strictly ascending order (hence no duplicates), none
before start and none at or after end; HOUR buckets are exactly one hour
apart; each DAY bucket is followed by the local-day start computed by the
25-hour daylight-saving step, which is exactly one day later whenever the
current key is itself a local-day start (the first gap from an unaligned
start can be shorter). -/
theorem bucket_generator_properties (it : IntervalType) (o startT endT : ℤ) :
    List.Pairwise (· < ·) (generateEmptyRowsOverInterval it o startT endT) ∧
    (∀ k ∈ generateEmptyRowsOverInterval it o startT endT,
      startT ≤ k ∧ k < endT) ∧
    List.Chain' (fun a b => b = nextBucket it o a)
      (generateEmptyRowsOverInterval it o startT endT) ∧
    (it = .HOUR → List.Chain' (fun a b => b = a + 60)
      (generateEmptyRowsOverInterval it o startT endT)) ∧
    (it = .DAY → List.Chain'
      (fun a b => b = startOfDayTz o (a + 1500) ∧
        (startOfDayTz o a = a → b = a + 1440))
      (generateEmptyRowsOverInterval it o startT endT)) := by
  refine ⟨generateEmptyRows_pairwise_lt it o startT endT,
    generateEmptyRows_mem_bounds it o startT endT,
    generateEmptyRows_chain_next it o startT endT, ?_, ?_⟩
  · rintro rfl
    exact (generateEmptyRows_chain_next .HOUR o startT endT).imp
      (fun a b hab => hab)
  · rintro rfl
    exact (generateEmptyRows_chain_next .DAY o startT endT).imp
      (fun a b hab =>
        ⟨hab, fun ha => by rw [hab]; exact startOfDayTz_idem_step o a ha⟩)

/-- C3 witness: the amended properties evaluated at HOUR granularity over
a three-hour range. -/
theorem bucket_generator_properties_witness :
    generateEmptyRowsOverInterval .HOUR 0 0 180 = [0, 60, 120] ∧
    List.Chain' (fun a b => b = a + 60)
      (generateEmptyRowsOverInterval .HOUR 0 0 180) := by
  refine ⟨?_, (bucket_generator_properties .HOUR 0 0 180).2.2.2.1 rfl⟩
  simp [generateEmptyRowsOverInterval, nextBucket]

end Analytics

namespace Analytics

theorem lookupA_upsert_self {κ β : Type} [DecidableEq κ] (m : List (κ × β))
    (k : κ) (v : β) : lookupA (upsert m k v) k = some v := by
  induction m with
  | nil => simp [upsert, lookupA]
  | cons p rest ih =>
    obtain ⟨k', v'⟩ := p
    by_cases h : k' = k
    · simp [upsert, h, lookupA]
    · simp [upsert, h, lookupA, ih]

theorem lookupA_upsert_ne {κ β : Type} [DecidableEq κ] (m : List (κ × β))
    (k k' : κ) (v : β) (h : k' ≠ k) :
    lookupA (upsert m k v) k' = lookupA m k' := by
  induction m with
  | nil => simp [upsert, lookupA, Ne.symm h]
  | cons p rest ih =>
    obtain ⟨k₀, v₀⟩ := p
    by_cases h0 : k₀ = k
    · subst h0
      simp [upsert, lookupA, Ne.symm h]
    · simp [upsert, h0, lookupA, ih]

theorem mem_of_lookupA {κ β : Type} [DecidableEq κ] (m : List (κ × β))
    (k : κ) (v : β) (h : lookupA m k = some v) : (k, v) ∈ m := by
  induction m with
  | nil => simp [lookupA] at h
  | cons p rest ih =>
    obtain ⟨k₀, v₀⟩ := p
    by_cases h0 : k₀ = k
    · subst h0
      simp [lookupA] at h
      simp [h]
    · simp [lookupA, h0] at h
      exact List.mem_cons_of_mem _ (ih h)

theorem lookupA_isSome_of_mem {κ β : Type} [DecidableEq κ] (m : List (κ × β))
    (k : κ) (v : β) (h : (k, v) ∈ m) : ∃ w, lookupA m k = some w := by
  induction m with
  | nil => simp at h
  | cons p rest ih =>
    obtain ⟨k₀, v₀⟩ := p
    by_cases h0 : k₀ = k
    · exact ⟨v₀, by simp [lookupA, h0]⟩
    · rcases List.mem_cons.mp h with heq | hmem
      · exact absurd (congrArg Prod.fst heq).symm h0
      · simpa [lookupA, h0] using ih hmem

theorem lookupA_eq_some_of_mem {κ β : Type} [DecidableEq κ]
    (m : List (κ × β)) (k : κ) (v : β)
    (hnd : (m.map Prod.fst).Nodup) (h : (k, v) ∈ m) :
    lookupA m k = some v := by
  induction m with
  | nil => simp at h
  | cons p rest ih =>
    obtain ⟨k₀, v₀⟩ := p
    simp only [List.map_cons, List.nodup_cons] at hnd
    rcases List.mem_cons.mp h with heq | hmem
    · rw [Prod.ext_iff] at heq
      obtain ⟨h1, h2⟩ := heq
      simp only at h1 h2
      simp [lookupA, h1.symm, h2]
    · have hne : k₀ ≠ k := by
        rintro rfl
        exact hnd.1 (List.mem_map.mpr ⟨(k₀, v), hmem, rfl⟩)
      simpa [lookupA, hne] using ih hnd.2 hmem

end Analytics

namespace Analytics

theorem upsert_map_fst {κ β : Type} [DecidableEq κ] (m : List (κ × β))
    (k : κ) (v : β) :
    (upsert m k v).map Prod.fst =
      if k ∈ m.map Prod.fst then m.map Prod.fst
      else m.map Prod.fst ++ [k] := by
  induction m with
  | nil => simp [upsert]
  | cons p rest ih =>
    obtain ⟨k₀, v₀⟩ := p
    by_cases h0 : k₀ = k
    · subst h0
      simp [upsert]
    · simp only [upsert, if_neg h0, List.map_cons, ih]
      by_cases hk : k ∈ rest.map Prod.fst
      · simp [hk, Ne.symm h0]
      · simp [hk, Ne.symm h0]

theorem upsert_map_fst_nodup {κ β : Type} [DecidableEq κ] (m : List (κ × β))
    (k : κ) (v : β) (hnd : (m.map Prod.fst).Nodup) :
    ((upsert m k v).map Prod.fst).Nodup := by
  rw [upsert_map_fst]
  by_cases hk : k ∈ m.map Prod.fst
  · simpa [hk] using hnd
  · simp [hk, List.nodup_append, hnd]

theorem foldl_upsert_map_fst_nodup {κ β ρ : Type} [DecidableEq κ]
    (key : ρ → κ) (val : List (κ × β) → ρ → β) (data : List ρ) :
    ∀ m : List (κ × β), (m.map Prod.fst).Nodup →
      ((data.foldl (fun acc r => upsert acc (key r) (val acc r)) m).map
        Prod.fst).Nodup := by
  induction data with
  | nil => intro m hm; simpa using hm
  | cons x rest ih =>
    intro m hm
    simpa using ih _ (upsert_map_fst_nodup m (key x) (val m x) hm)

theorem lookupA_foldl_upsert_of_ne {κ β ρ : Type} [DecidableEq κ]
    (key : ρ → κ) (val : List (κ × β) → ρ → β) (data : List ρ) (k : κ)
    (h : ∀ r ∈ data, key r ≠ k) :
    ∀ m : List (κ × β),
      lookupA (data.foldl (fun acc r => upsert acc (key r) (val acc r)) m) k
        = lookupA m k := by
  induction data with
  | nil => intro m; rfl
  | cons x rest ih =>
    intro m
    have hx : key x ≠ k := h x (List.mem_cons_self x rest)
    have hrest : ∀ r ∈ rest, key r ≠ k :=
      fun r hr => h r (List.mem_cons_of_mem x hr)
    simp only [List.foldl_cons]
    rw [ih hrest (upsert m (key x) (val m x))]
    exact lookupA_upsert_ne m (key x) k (val m x) (Ne.symm hx)

theorem lookupA_foldl_upsert_of_mem {κ β ρ : Type} [DecidableEq κ]
    (key : ρ → κ) (valr : ρ → β) (data : List ρ)
    (hnd : (data.map key).Nodup) (r : ρ) (hr : r ∈ data) :
    ∀ m : List (κ × β),
      lookupA (data.foldl (fun acc x => upsert acc (key x) (valr x)) m)
        (key r) = some (valr r) := by
  induction data with
  | nil => simp at hr
  | cons x rest ih =>
    intro m
    simp only [List.map_cons, List.nodup_cons] at hnd
    rcases List.mem_cons.mp hr with rfl | hmem
    · have hrest : ∀ r' ∈ rest, key r' ≠ key r := by
        intro r' hr' hkey
        exact hnd.1 (List.mem_map.mpr ⟨r', hr', hkey⟩)
      simp only [List.foldl_cons]
      rw [lookupA_foldl_upsert_of_ne key (fun _ x => valr x) rest (key r)
        hrest (upsert m (key r) (valr r))]
      exact lookupA_upsert_self m (key r) (valr r)
    · simp only [List.foldl_cons]
      exact ih hnd.2 hmem _

theorem lookupA_map_const {κ β : Type} [DecidableEq κ] (ks : List κ) (z : β)
    (k : κ) (h : k ∈ ks) :
    lookupA (ks.map (fun x => (x, z))) k = some z := by
  induction ks with
  | nil => simp at h
  | cons x rest ih =>
    by_cases hx : x = k
    · simp [lookupA, hx]
    · rcases List.mem_cons.mp h with rfl | hmem
      · exact absurd rfl hx
      · simpa [lookupA, hx] using ih hmem

end Analytics

namespace Analytics

/-- C4: time-series reconciliation is a left-biased merge over the
zero-seeded bucket map: a bucket key matched by no backend row keeps the
zero record, a bucket key carried by a backend row holds exactly the
record of that row (overwritten, never summed), the emitted entries have
pairwise distinct keys and are in strictly ascending key order. -/
theorem timeSeries_merge_left_biased (it : IntervalType) (o startT endT : ℤ)
    (data : List BucketRow)
    (hnd : (data.map (fun r => r.bucket)).Nodup) :
    (∀ k ∈ generateEmptyRowsOverInterval it o startT endT,
      (∀ r ∈ data, r.bucket ≠ k) →
      (k, (⟨0, 0, 0⟩ : BucketCounts))
        ∈ getViewsGroupedByInterval it o startT endT data) ∧
    (∀ r ∈ data,
      (r.bucket, (⟨r.views, r.visitors, r.visits⟩ : BucketCounts))
        ∈ getViewsGroupedByInterval it o startT endT data) ∧
    ((getViewsGroupedByInterval it o startT endT data).map Prod.fst).Nodup ∧
    List.Pairwise (fun a b : ℤ × BucketCounts => a.1 < b.1)
      (getViewsGroupedByInterval it o startT endT data) := by
  have hseednd : (generateEmptyRowsOverInterval it o startT endT).Nodup :=
    (generateEmptyRows_pairwise_lt it o startT endT).imp
      (fun h => ne_of_lt h)
  have hseedednd :
      (((generateEmptyRowsOverInterval it o startT endT).map
        (fun k => (k, (⟨0, 0, 0⟩ : BucketCounts)))).map Prod.fst).Nodup := by
    simp only [List.map_map, Function.comp_def]
    simpa using hseednd
  have hmergednd :
      ((data.foldl
        (fun accum row =>
          upsert accum row.bucket ⟨row.views, row.visitors, row.visits⟩)
        ((generateEmptyRowsOverInterval it o startT endT).map
          (fun k => (k, (⟨0, 0, 0⟩ : BucketCounts))))).map Prod.fst).Nodup :=
    foldl_upsert_map_fst_nodup (fun r => r.bucket)
      (fun _ row => ⟨row.views, row.visitors, row.visits⟩) data _ hseedednd
  have hperm :
      List.Perm (getViewsGroupedByInterval it o startT endT data)
        (data.foldl
          (fun accum row =>
            upsert accum row.bucket ⟨row.views, row.visitors, row.visits⟩)
          ((generateEmptyRowsOverInterval it o startT endT).map
            (fun k => (k, (⟨0, 0, 0⟩ : BucketCounts))))) :=
    List.perm_insertionSort _ _
  have houtnd :
      ((getViewsGroupedByInterval it o startT endT data).map
        Prod.fst).Nodup :=
    ((hperm.map Prod.fst).nodup_iff).mpr hmergednd
  refine ⟨?_, ?_, houtnd, ?_⟩
  · intro k hk hnone
    refine hperm.mem_iff.mpr (mem_of_lookupA _ k _ ?_)
    rw [lookupA_foldl_upsert_of_ne (fun r => r.bucket)
      (fun _ row => (⟨row.views, row.visitors, row.visits⟩ : BucketCounts))
      data k hnone]
    exact lookupA_map_const _ _ k hk
  · intro r hr
    refine hperm.mem_iff.mpr (mem_of_lookupA _ r.bucket _ ?_)
    exact lookupA_foldl_upsert_of_mem (fun r => r.bucket)
      (fun row => (⟨row.views, row.visitors, row.visits⟩ : BucketCounts))
      data hnd r hr _
  · have hsorted :
        List.Pairwise (fun a b : ℤ × BucketCounts => a.1 ≤ b.1)
          (getViewsGroupedByInterval it o startT endT data) :=
      List.sorted_insertionSort _ _
    have hne :
        List.Pairwise (fun a b : ℤ × BucketCounts => a.1 ≠ b.1)
          (getViewsGroupedByInterval it o startT endT data) :=
      List.pairwise_map.mp houtnd
    exact (hsorted.and hne).imp (fun h => lt_of_le_of_ne h.1 h.2)

/-- C4 witness: a one-row backend response over a two-bucket HOUR range:
the matched bucket is overwritten, the unmatched one keeps zeros, emitted
in ascending order. -/
theorem timeSeries_merge_left_biased_witness :
    ((60 : ℤ), (⟨5, 3, 2⟩ : BucketCounts))
      ∈ getViewsGroupedByInterval .HOUR 0 0 120 [⟨60, 5, 3, 2⟩] :=
  (timeSeries_merge_left_biased .HOUR 0 0 120 [⟨60, 5, 3, 2⟩]
    (by decide)).2.1 ⟨60, 5, 3, 2⟩ (by decide)

end Analytics

namespace Analytics

theorem lookupA_eq_of_mem_iff {κ β : Type} [DecidableEq κ]
    (f1 f2 : List (κ × β))
    (h1 : (f1.map Prod.fst).Nodup) (h2 : (f2.map Prod.fst).Nodup)
    (hset : ∀ p, p ∈ f1 ↔ p ∈ f2) (k : κ) :
    lookupA f1 k = lookupA f2 k := by
  cases hl : lookupA f1 k with
  | some v =>
    exact (lookupA_eq_some_of_mem f2 k v h2
      ((hset _).mp (mem_of_lookupA f1 k v hl))).symm
  | none =>
    cases hl2 : lookupA f2 k with
    | none => rfl
    | some w =>
      obtain ⟨w', hw'⟩ := lookupA_isSome_of_mem f1 k w
        ((hset _).mpr (mem_of_lookupA f2 k w hl2))
      rw [hl] at hw'
      cases hw'

theorem foldl_filtersToSql_congr (ks : List String)
    (f1 f2 : List (String × String))
    (h : ∀ k ∈ ks, lookupA f1 k = lookupA f2 k) :
    ∀ acc : String,
      ks.foldl
        (fun filterStr filter =>
          match lookupA f1 filter with
          | some v =>
            filterStr ++ "AND " ++ ColumnMappings filter ++ " = \x27" ++ v ++ "\x27"
          | none => filterStr) acc
      = ks.foldl
          (fun filterStr filter =>
            match lookupA f2 filter with
            | some v =>
              filterStr ++ "AND " ++ ColumnMappings filter ++ " = \x27" ++ v ++ "\x27"
            | none => filterStr) acc := by
  induction ks with
  | nil => intro acc; rfl
  | cons x rest ih =>
    intro acc
    have hx : lookupA f1 x = lookupA f2 x := h x (List.mem_cons_self x rest)
    have hrest : ∀ k ∈ rest, lookupA f1 k = lookupA f2 k :=
      fun k hk => h k (List.mem_cons_of_mem x hk)
    simp only [List.foldl_cons, hx]
    exact ih hrest _

theorem lookupA_filter_supported (f : List (String × String)) (k : String)
    (hk : k ∈ supportedFilters) :
    lookupA (f.filter (fun p => decide (p.1 ∈ supportedFilters))) k
      = lookupA f k := by
  induction f with
  | nil => rfl
  | cons p t ih =>
    obtain ⟨k₀, v₀⟩ := p
    by_cases hmem : k₀ ∈ supportedFilters
    · by_cases hkk : k₀ = k
      · simp [List.filter_cons, hmem, lookupA, hkk, hk]
      · simp [List.filter_cons, hmem, lookupA, hkk, ih]
    · have hkk : k₀ ≠ k := fun h => hmem (h ▸ hk)
      simp [List.filter_cons, hmem, lookupA, hkk, ih]

/-- C6: the filter compiler is deterministic in the filter set: two filter
objects holding the same key-value pairs (in any insertion order) compile
to identical predicate text; only allow-listed keys are interpolated (a
filter object restricted to the allow-list compiles identically); the
clauses follow the fixed allow-list order, path before country on the
worked example. -/
theorem filtersToSql_deterministic (f1 f2 : List (String × String))
    (h1 : (f1.map Prod.fst).Nodup) (h2 : (f2.map Prod.fst).Nodup)
    (hset : ∀ p, p ∈ f1 ↔ p ∈ f2) :
    filtersToSql f1 = filtersToSql f2 ∧
    (∀ f : List (String × String),
      filtersToSql f
        = filtersToSql (f.filter (fun p => decide (p.1 ∈ supportedFilters)))) ∧
    filtersToSql [("country", "US"), ("path", "/x")]
      = "AND " ++ ColumnMappings "path" ++ " = \x27/x\x27" ++ "AND "
        ++ ColumnMappings "country" ++ " = \x27US\x27" := by
  refine ⟨?_, ?_, by decide⟩
  · exact foldl_filtersToSql_congr supportedFilters f1 f2
      (fun k _ => lookupA_eq_of_mem_iff f1 f2 h1 h2 hset k) ""
  · intro f
    exact foldl_filtersToSql_congr supportedFilters f
      (f.filter (fun p => decide (p.1 ∈ supportedFilters)))
      (fun k hk => (lookupA_filter_supported f k hk).symm) ""

/-- C6 witness: the two insertion orders of the same country/path filter
set compile to the same text. -/
theorem filtersToSql_deterministic_witness :
    filtersToSql [("country", "US"), ("path", "/x")]
      = filtersToSql [("path", "/x"), ("country", "US")] :=
  (filtersToSql_deterministic [("country", "US"), ("path", "/x")]
    [("path", "/x"), ("country", "US")] (by decide) (by decide)
    (fun p => by
      simp only [List.mem_cons, List.not_mem_nil, or_false]
      tauto)).1

end Analytics

namespace Analytics

theorem accumulate_rightComm (c : AnalyticsCountResult) (r1 r2 : KeyedRow) :
    accumulateCountsFromRowResult (accumulateCountsFromRowResult c r1) r2
      = accumulateCountsFromRowResult (accumulateCountsFromRowResult c r2) r1 := by
  simp only [accumulateCountsFromRowResult]
  split_ifs <;> simp [AnalyticsCountResult.mk.injEq] <;> ring_nf <;>
    simp [add_comm, add_left_comm]

theorem foldl_eq_of_perm {α β : Type} (f : β → α → β)
    (hf : ∀ b a1 a2, f (f b a1) a2 = f (f b a2) a1)
    {l1 l2 : List α} (h : List.Perm l1 l2) :
    ∀ b, l1.foldl f b = l2.foldl f b := by
  induction h with
  | nil => intro b; rfl
  | cons x _ ih => intro b; simp only [List.foldl_cons]; exact ih _
  | swap x y l => intro b; simp only [List.foldl_cons]; rw [hf]
  | trans _ _ ih1 ih2 => intro b; rw [ih1 b, ih2 b]

theorem lookupA_buildAllCounts_aux (data : List KeyedRow) :
    ∀ (m : List (String × AnalyticsCountResult)) (k : String),
      lookupA
        (data.foldl
          (fun acc row =>
            upsert acc row.key (accumulateCountsFromRowResult
              ((lookupA acc row.key).getD ⟨0, 0, 0⟩) row)) m) k
        = if (data.filter (fun r => r.key = k)) = [] then lookupA m k
          else some ((data.filter (fun r => r.key = k)).foldl
            accumulateCountsFromRowResult ((lookupA m k).getD ⟨0, 0, 0⟩)) := by
  induction data with
  | nil => intro m k; simp
  | cons x rest ih =>
    intro m k
    by_cases hx : x.key = k
    · subst hx
      simp only [List.foldl_cons, List.filter_cons]
      rw [ih (upsert m x.key (accumulateCountsFromRowResult
        ((lookupA m x.key).getD ⟨0, 0, 0⟩) x)) x.key]
      rw [lookupA_upsert_self]
      by_cases hrest : rest.filter (fun r => decide (r.key = x.key)) = []
      · simp [hrest]
      · simp [hrest]
    · have hxb : (decide (x.key = k)) = false := by simp [hx]
      simp only [List.foldl_cons, List.filter_cons, hxb, Bool.false_eq_true,
        if_false]
      rw [ih (upsert m x.key (accumulateCountsFromRowResult
        ((lookupA m x.key).getD ⟨0, 0, 0⟩) x)) k]
      rw [lookupA_upsert_ne m x.key k _ (Ne.symm hx)]

/-- C7: dimension accumulation is order-insensitive: permuting the
indicator-tagged page rows leaves every per-dimension record of the
getAllCountsByColumn accumulation unchanged; each row adds its count to
views unconditionally, to visits exactly when isVisit = 1 and to visitors
exactly when isVisitor = 1. -/
theorem dimension_accumulation_perm_invariant (rows1 rows2 : List KeyedRow)
    (hperm : List.Perm rows1 rows2) :
    (∀ k, lookupA (buildAllCounts rows1) k
      = lookupA (buildAllCounts rows2) k) ∧
    (∀ (c : AnalyticsCountResult) (r : KeyedRow),
      accumulateCountsFromRowResult c r
        = ⟨c.views + r.count,
            if r.isVisit = 1 then c.visits + r.count else c.visits,
            if r.isVisitor = 1 then c.visitors + r.count else c.visitors⟩) := by
  constructor
  · intro k
    rw [buildAllCounts, buildAllCounts, lookupA_buildAllCounts_aux,
      lookupA_buildAllCounts_aux]
    have hfperm : List.Perm (rows1.filter (fun r => decide (r.key = k)))
        (rows2.filter (fun r => decide (r.key = k))) := hperm.filter _
    by_cases h1 : rows1.filter (fun r => decide (r.key = k)) = []
    · have h2 : rows2.filter (fun r => decide (r.key = k)) = [] := by
        rw [h1] at hfperm
        exact hfperm.symm.eq_nil
      rw [if_pos h1, if_pos h2]
    · have h2 : rows2.filter (fun r => decide (r.key = k)) ≠ [] := by
        intro h2
        rw [h2] at hfperm
        exact h1 hfperm.eq_nil
      rw [if_neg h1, if_neg h2]
      exact congrArg some
        (foldl_eq_of_perm accumulateCountsFromRowResult
          accumulate_rightComm hfperm _)
  · intro c r
    simp only [accumulateCountsFromRowResult]
    split_ifs <;> rfl

/-- C7 witness: two rows of the same dimension value accumulated in both
orders yield the same record. -/
theorem dimension_accumulation_perm_invariant_witness :
    lookupA (buildAllCounts [⟨"a", 2, 1, 0⟩, ⟨"a", 3, 0, 1⟩]) "a"
      = lookupA (buildAllCounts [⟨"a", 3, 0, 1⟩, ⟨"a", 2, 1, 0⟩]) "a" :=
  (dimension_accumulation_perm_invariant _ _
    (List.Perm.swap ⟨"a", 3, 0, 1⟩ ⟨"a", 2, 1, 0⟩ [])).1 "a"

end Analytics
